import Mathlib

/-!
Verification of the LDAP entry model and LDIF codec
(`app/services/ldif/{utils,generator,validator,models}.py`).

Python strings are modelled as lists of Unicode scalar values (`List Char`),
matching Python's per-character semantics (`ord`, indexing, slicing).
Functions that raise `ValueError` are modelled with `Except PyStr`,
carrying the exception message.
-/

namespace LDIF

/-- A Python `str`: a sequence of Unicode scalar values. -/
abbrev PyStr := List Char

/-- Characters of a Lean string literal, used to write concrete Python strings. -/
def pstr (s : String) : PyStr := s.data

/-! ## utils.py -/

/-- UTF-8 encoding of a single code point, as `value.encode("utf-8")` does per char. -/
def utf8Bytes (n : Nat) : List Nat :=
  if n < 0x80 then [n]
  else if n < 0x800 then
    [0xC0 + n / 0x40, 0x80 + n % 0x40]
  else if n < 0x10000 then
    [0xE0 + n / 0x1000, 0x80 + n / 0x40 % 0x40, 0x80 + n % 0x40]
  else
    [0xF0 + n / 0x40000, 0x80 + n / 0x1000 % 0x40, 0x80 + n / 0x40 % 0x40, 0x80 + n % 0x40]

/-- Lowercase hex digit, as Python `f"\\{byte:02x}"` produces. -/
def hexDigit (n : Nat) : Char :=
  if n < 10 then Char.ofNat (48 + n) else Char.ofNat (87 + n)

/-- One `\XX` escape for a byte value. -/
def hexByte (b : Nat) : PyStr := ['\\', hexDigit (b / 16), hexDigit (b % 16)]

/-- The tuple `("#", ",", "+", '"', "\\", "<", ">", ";")` tested by `escape_dn_value`. -/
def escSpecials : List Char := ['#', ',', '+', '"', '\\', '<', '>', ';']

/-- Output contributed by one character of the `for` loop of `escape_dn_value`. -/
def escChar (c : Char) : PyStr :=
  if c ∈ escSpecials then ['\\', c]
  else if c.toNat < 32 ∨ 126 < c.toNat then ((utf8Bytes c.toNat).map hexByte).flatten
  else [c]

/-- The accumulating loop `escaped += ...` of `escape_dn_value`. -/
def escAccum (value : PyStr) : PyStr :=
  value.foldl (fun escaped c => escaped ++ escChar c) []

/-- Leading fix of the source: `if escaped and escaped[0] == " ": escaped = "\\ " + escaped[1:]`. -/
def fixLeading (escaped : PyStr) : PyStr :=
  match escaped with
  | [] => []
  | c :: rest => if c = ' ' then '\\' :: ' ' :: rest else c :: rest

/-- Trailing fix of the source: `if escaped and escaped[-1] == " ": escaped = escaped[:-1] + "\\ "`. -/
def fixTrailing (escaped : PyStr) : PyStr :=
  if escaped.getLast? = some ' ' then escaped.dropLast ++ ['\\', ' '] else escaped

/-- Function `escape_dn_value` from `app/services/ldif/utils.py`. -/
def escape_dn_value (value : PyStr) : PyStr :=
  fixTrailing (fixLeading (escAccum value))

/-! ## generator.py: safe strings and base64 -/

/-- The per-character rejection test in the first loop of `is_safe_string`. -/
def badChar (c : Char) : Bool :=
  decide (127 < c.toNat) || c.toNat == 0 || c.toNat == 10 || c.toNat == 13

/-- Function `is_safe_string` from `app/services/ldif/generator.py`. -/
def is_safe_string (s : PyStr) : Bool :=
  match s with
  | [] => true
  | first :: _ =>
    if s.any badChar then false
    else if first.toNat == 32 || first.toNat == 58 || first.toNat == 60 then false
    else if s.getLast? = some ' ' then false
    else true

/-- UTF-8 bytes of a whole string, `s.encode("utf-8")`. -/
def utf8Str (s : PyStr) : List Nat :=
  (s.map (fun c => utf8Bytes c.toNat)).flatten

/-- The standard base64 alphabet. -/
def b64Char (n : Nat) : Char :=
  (pstr "ABCDEFGHIJKLMNOPQRSTUVWXYZabcdefghijklmnopqrstuvwxyz0123456789+/").getD n 'A'

/-- Standard base64 with padding over a byte list, as `base64.b64encode`. -/
def b64Chunks : List Nat → PyStr
  | [] => []
  | [a] => [b64Char (a / 4), b64Char (a % 4 * 16), '=', '=']
  | [a, b] => [b64Char (a / 4), b64Char (a % 4 * 16 + b / 16), b64Char (b % 16 * 4), '=']
  | a :: b :: c :: rest =>
    [b64Char (a / 4), b64Char (a % 4 * 16 + b / 16),
     b64Char (b % 16 * 4 + c / 64), b64Char (c % 64)] ++ b64Chunks rest

/-- Function `encode_value` from `app/services/ldif/generator.py`: base64 of the UTF-8 bytes. -/
def encode_value (value : PyStr) : PyStr := b64Chunks (utf8Str value)

/-! ## validator.py -/

/-- Python `str.isspace`, the character class removed by `str.strip()`. -/
def pyIsSpace (c : Char) : Bool :=
  let n := c.toNat
  (decide (9 ≤ n) && decide (n ≤ 13)) || n == 32 ||
  (decide (28 ≤ n) && decide (n ≤ 31)) || n == 0x85 || n == 0xA0 ||
  n == 0x1680 || (decide (0x2000 ≤ n) && decide (n ≤ 0x200A)) ||
  n == 0x2028 || n == 0x2029 || n == 0x202F || n == 0x205F || n == 0x3000

/-- Python `part.strip()`: drop whitespace from both ends. -/
def pyStrip (s : PyStr) : PyStr :=
  ((s.dropWhile pyIsSpace).reverse.dropWhile pyIsSpace).reverse

/-- The splitting loop of `validate_dn`: split on unescaped commas, keeping
backslashes and the characters they escape inside the current part.
Returns `none` when the DN ends inside an escape (trailing lone backslash),
mirroring the `if escaped: return False` exit. -/
def dnSplitAux : PyStr → Bool → PyStr → List PyStr → Option (List PyStr)
  | [], esc, cur, parts => if esc then none else some (parts ++ [cur])
  | c :: rest, esc, cur, parts =>
    if esc then dnSplitAux rest false (cur ++ [c]) parts
    else if c = '\\' then dnSplitAux rest true (cur ++ [c]) parts
    else if c = ',' then dnSplitAux rest false [] (parts ++ [cur])
    else dnSplitAux rest false (cur ++ [c]) parts

/-- Escape-aware comma split of a DN. -/
def dnSplit (dn : PyStr) : Option (List PyStr) := dnSplitAux dn false [] []

/-- The regex character class `[a-zA-Z0-9-]`. -/
def keyChar (c : Char) : Bool :=
  (decide (97 ≤ c.toNat) && decide (c.toNat ≤ 122)) ||
  (decide (65 ≤ c.toNat) && decide (c.toNat ≤ 90)) ||
  (decide (48 ≤ c.toNat) && decide (c.toNat ≤ 57)) || c == '-'

/-- The segment pattern `re.match(r'^[a-zA-Z0-9-]+=.*$', p)` for an already-stripped part `p`:
a non-empty run of key characters, then `=`, then `.*$`.  Since `.` does not
match a newline and a stripped part cannot end in whitespace, the `.*$` tail
succeeds exactly when the value holds no newline. -/
def dnPartMatch (p : PyStr) : Bool :=
  !(p.takeWhile keyChar).isEmpty &&
    (match p.dropWhile keyChar with
     | '=' :: tail => !(tail.contains '\n')
     | _ => false)

/-- Function `validate_dn` from `app/services/ldif/validator.py`. -/
def validate_dn (dn : PyStr) : Bool :=
  if dn = [] then false
  else
    match dnSplit dn with
    | none => false
    | some parts =>
      parts.all (fun part =>
        let p := pyStrip part
        !p.isEmpty && dnPartMatch p)

/-- Function `validate_attribute_name`, i.e. `re.match(r'^[a-zA-Z][a-zA-Z0-9-]*$', name)`.
`$` also matches just before a newline that ends the string, hence the
`dropLast` case for a final `\n`. -/
def validate_attribute_name (name : PyStr) : Bool :=
  match name with
  | [] => false
  | c :: t =>
    (c.isUpper || c.isLower) &&
      (if t.getLast? = some '\n' then t.dropLast else t).all keyChar

/-! ## models.py -/

/-- An `LDAPEntry` instance: RDN, parent DN, object classes, and the
(insertion-ordered) attribute map, modelled as an association list. -/
structure LDAPEntry where
  rdn : PyStr
  parent_dn : PyStr
  object_classes : List PyStr
  attributes : List (PyStr × List PyStr)

/-- Constructor `LDAPEntry.__init__`: `object_classes if object_classes else []` maps both
`None` and the empty list to `[]` (and likewise for `attributes`), which is
exactly `Option.getD []`. -/
def LDAPEntry.init (rdn parent_dn : PyStr) (object_classes : Option (List PyStr))
    (attributes : Option (List (PyStr × List PyStr))) : LDAPEntry :=
  ⟨rdn, parent_dn, object_classes.getD [], attributes.getD []⟩

/-- The `dn` property: `rdn` when the parent is empty, else `rdn + "," + parent_dn`. -/
def LDAPEntry.dn (e : LDAPEntry) : PyStr :=
  if e.parent_dn = [] then e.rdn else e.rdn ++ ',' :: e.parent_dn

/-- One step of the constructors' extra-attribute merge: if the key exists,
`attributes[k].extend(v)` appends in place; otherwise `attributes[k] = v`
inserts at the end (Python dicts preserve insertion order). -/
def mergeExtra (attrs : List (PyStr × List PyStr)) (k : PyStr) (v : List PyStr) :
    List (PyStr × List PyStr) :=
  if attrs.any (fun p => p.1 == k) then
    attrs.map (fun p => if p.1 = k then (p.1, p.2 ++ v) else p)
  else attrs ++ [(k, v)]

/-- The `for k, v in additional_attributes.items()` merge loop. -/
def mergeAttrs (base extras : List (PyStr × List PyStr)) : List (PyStr × List PyStr) :=
  extras.foldl (fun acc p => mergeExtra acc p.1 p.2) base

/-- Constructor `User.__init__` (the Person constructor) from `app/services/ldif/models.py`. -/
def User (uid parent_dn cn sn : PyStr)
    (additional_attributes : Option (List (PyStr × List PyStr))) : LDAPEntry :=
  LDAPEntry.init (pstr "uid=" ++ escape_dn_value uid) parent_dn
    (some [pstr "top", pstr "person", pstr "organizationalPerson", pstr "inetOrgPerson"])
    (some (mergeAttrs [(pstr "uid", [uid]), (pstr "cn", [cn]), (pstr "sn", [sn])]
      (additional_attributes.getD [])))

/-- Constructor `Group.__init__` from `app/services/ldif/models.py`; `members if members
else []` is again `Option.getD []`. -/
def Group (cn parent_dn : PyStr) (members : Option (List PyStr))
    (additional_attributes : Option (List (PyStr × List PyStr))) : LDAPEntry :=
  LDAPEntry.init (pstr "cn=" ++ escape_dn_value cn) parent_dn
    (some [pstr "top", pstr "groupOfNames"])
    (some (mergeAttrs [(pstr "cn", [cn]), (pstr "member", members.getD [])]
      (additional_attributes.getD [])))

/-- The object-class loop of `validate_entry`: first offending class raises. -/
def checkObjectClasses : List PyStr → Except PyStr Unit
  | [] => Except.ok ()
  | oc :: rest =>
    if validate_attribute_name oc then checkObjectClasses rest
    else Except.error (pstr "Invalid objectClass: " ++ oc)

/-- The attribute loop of `validate_entry`: first offending name raises.
The `isinstance(values, list)` guard is vacuous in this typed model, where
every attribute's values are a list by construction. -/
def checkAttrNames : List (PyStr × List PyStr) → Except PyStr Unit
  | [] => Except.ok ()
  | (nm, _vals) :: rest =>
    if validate_attribute_name nm then checkAttrNames rest
    else Except.error (pstr "Invalid attribute name: " ++ nm)

/-- Function `validate_entry` from `app/services/ldif/validator.py`; a raised
`ValueError` becomes `Except.error` with the message. -/
def validate_entry (e : LDAPEntry) : Except PyStr Unit :=
  if validate_dn e.dn then
    match checkObjectClasses e.object_classes with
    | Except.error m => Except.error m
    | Except.ok _ => checkAttrNames e.attributes
  else Except.error (pstr "Invalid DN: " ++ e.dn)

/-! ## generator.py: LDIFGenerator -/

/-- The DN line: `dn: <dn>` when safe, `dn:: <base64>` otherwise. -/
def dnLine (e : LDAPEntry) : PyStr :=
  if is_safe_string e.dn then pstr "dn: " ++ e.dn else pstr "dn:: " ++ encode_value e.dn

/-- One object-class line. -/
def ocLine (oc : PyStr) : PyStr :=
  if is_safe_string oc then pstr "objectClass: " ++ oc
  else pstr "objectClass:: " ++ encode_value oc

/-- One attribute line. -/
def attrLine (attr v : PyStr) : PyStr :=
  if is_safe_string v then attr ++ pstr ": " ++ v
  else attr ++ pstr ":: " ++ encode_value v

/-- The `lines` list built by `LDIFGenerator.generate`, mirroring the
`lines.append(...)` loops with left folds. -/
def generateLines (e : LDAPEntry) : List PyStr :=
  let lines := [dnLine e]
  let lines := e.object_classes.foldl (fun acc oc => acc ++ [ocLine oc]) lines
  e.attributes.foldl (fun acc p => p.2.foldl (fun acc2 v => acc2 ++ [attrLine p.1 v]) acc) lines

/-- Method `LDIFGenerator.generate` on a single entry: validate, then join the lines
with `"\n"`. -/
def generate (e : LDAPEntry) : Except PyStr PyStr :=
  match validate_entry e with
  | Except.error m => Except.error m
  | Except.ok _ => Except.ok (List.intercalate ['\n'] (generateLines e))

/-- The collection loop of `generate_batch`; an exception from `generate`
aborts the whole loop. -/
def batchOutputs : List LDAPEntry → List PyStr → Except PyStr (List PyStr)
  | [], acc => Except.ok acc
  | e :: rest, acc =>
    match generate e with
    | Except.error m => Except.error m
    | Except.ok out => batchOutputs rest (acc ++ [out])

/-- Method `LDIFGenerator.generate_batch`: render every entry, then join with a blank
line (`"\n\n".join`). -/
def generate_batch (entries : List LDAPEntry) : Except PyStr PyStr :=
  match batchOutputs entries [] with
  | Except.error m => Except.error m
  | Except.ok outs => Except.ok (List.intercalate (pstr "\n\n") outs)

/-! ## Spec-side definitions, written from the wording of the claims -/

/-- Plain ASCII letters and digits, the character class of claim C9. -/
def plainAlnum (c : Char) : Bool :=
  (decide (65 ≤ c.toNat) && decide (c.toNat ≤ 90)) ||
  (decide (97 ≤ c.toNat) && decide (c.toNat ≤ 122)) ||
  (decide (48 ≤ c.toNat) && decide (c.toNat ≤ 57))

/-- Per-character escaping rule as the amended claim C2 words it: the seven
RFC 4514 specials and the hash are backslash-prefixed wherever they occur,
characters outside printable ASCII become one backslash-hex pair per UTF-8
byte, every other character is kept unchanged. -/
def escCharAmended (c : Char) : PyStr :=
  if c = '#' ∨ c = ',' ∨ c = '+' ∨ c = '"' ∨ c = '\\' ∨ c = '<' ∨ c = '>' ∨ c = ';' then
    ['\\', c]
  else if 32 ≤ c.toNat ∧ c.toNat ≤ 126 then [c]
  else ((utf8Bytes c.toNat).map (fun b => ['\\', hexDigit (b / 16), hexDigit (b % 16)])).flatten

/-- Leading-space rule of claim C2: a leading space gets a backslash put in
front of it. -/
def leadingSpaceFix (s : PyStr) : PyStr :=
  if s.head? = some ' ' then '\\' :: s else s

/-- Trailing-space rule of claim C2: a trailing space is replaced by
backslash-space. -/
def trailingSpaceFix (s : PyStr) : PyStr :=
  if s.getLast? = some ' ' then s.dropLast ++ pstr "\\ " else s

/-- The line sequence described by claim C1: one DN line, then one line per
object class in list order, then one line per attribute value, attributes in
map-insertion order and values in per-attribute list order. -/
def specLines (e : LDAPEntry) : List PyStr :=
  dnLine e ::
    (e.object_classes.map ocLine ++
      (e.attributes.map (fun p => p.2.map (attrLine p.1))).flatten)

/-! ## Concrete entries used by the witnesses -/

/-- The `Person(uid="jdoe", ...)` of the C7 scenario. -/
def jdoeUser : LDAPEntry :=
  User (pstr "jdoe") (pstr "ou=people,dc=example,dc=com") (pstr "John Doe") (pstr "Doe") none

/-- Expected LDIF block for `jdoeUser`. -/
def jdoeLdif : PyStr :=
  pstr "dn: uid=jdoe,ou=people,dc=example,dc=com\nobjectClass: top\nobjectClass: person\nobjectClass: organizationalPerson\nobjectClass: inetOrgPerson\nuid: jdoe\ncn: John Doe\nsn: Doe"

/-- A small valid user for batch witnesses. -/
def wUser1 : LDAPEntry := User (pstr "u1") (pstr "dc=x") (pstr "U1") (pstr "S1") none

/-- A second small valid user for batch witnesses. -/
def wUser2 : LDAPEntry := User (pstr "u2") (pstr "dc=x") (pstr "U2") (pstr "S2") none

/-- Expected LDIF block for `wUser1`. -/
def wUser1Ldif : PyStr :=
  pstr "dn: uid=u1,dc=x\nobjectClass: top\nobjectClass: person\nobjectClass: organizationalPerson\nobjectClass: inetOrgPerson\nuid: u1\ncn: U1\nsn: S1"

/-- Expected LDIF block for `wUser2`. -/
def wUser2Ldif : PyStr :=
  pstr "dn: uid=u2,dc=x\nobjectClass: top\nobjectClass: person\nobjectClass: organizationalPerson\nobjectClass: inetOrgPerson\nuid: u2\ncn: U2\nsn: S2"

/-- The invalid entry of the concrete validation scenario: `rdn="invalid"`. -/
def badEntry : LDAPEntry := LDAPEntry.init (pstr "invalid") [] none none

/-- A valid entry with no object classes and one attribute, for C10. -/
def noClassEntry : LDAPEntry :=
  LDAPEntry.init (pstr "cn=x") [] none (some [(pstr "cn", [pstr "x"])])

/-! ## Helper lemmas -/

theorem foldl_append_singleton {α β : Type} (g : α → β) (l : List α) (acc : List β) :
    l.foldl (fun a x => a ++ [g x]) acc = acc ++ l.map g := by
  induction l generalizing acc with
  | nil => simp
  | cons x xs ih => simp [ih]

theorem foldl_append_flatten {α β : Type} (g : α → List β) (l : List α) (acc : List β) :
    l.foldl (fun a x => a ++ g x) acc = acc ++ (l.map g).flatten := by
  induction l generalizing acc with
  | nil => simp
  | cons x xs ih => simp [ih]

theorem foldl_attr_lines (attrs : List (PyStr × List PyStr)) (acc : List PyStr) :
    attrs.foldl (fun a p => p.2.foldl (fun a2 v => a2 ++ [attrLine p.1 v]) a) acc =
      acc ++ (attrs.map (fun p => p.2.map (attrLine p.1))).flatten := by
  induction attrs generalizing acc with
  | nil => simp
  | cons p rest ih =>
    rw [List.foldl_cons, foldl_append_singleton, ih]
    simp

theorem generateLines_eq_specLines (e : LDAPEntry) : generateLines e = specLines e := by
  unfold generateLines specLines
  rw [foldl_attr_lines, foldl_append_singleton]
  simp

theorem escAccum_eq_flatten (value : PyStr) :
    escAccum value = (value.map escChar).flatten := by
  unfold escAccum
  rw [foldl_append_flatten]
  simp

/-! ## Claim C8 -/

/-- Claim C8: the derived DN is the RDN when the parent DN is empty, and
RDN comma parent DN otherwise. -/
theorem C8_dn_composition :
    (∀ e : LDAPEntry, e.parent_dn = [] → e.dn = e.rdn) ∧
    (∀ e : LDAPEntry, e.parent_dn ≠ [] → e.dn = e.rdn ++ ',' :: e.parent_dn) := by
  constructor
  · intro e h; simp [LDAPEntry.dn, h]
  · intro e h; simp [LDAPEntry.dn, h]

/-- Witness for C8 at two concrete entries, one with an empty parent DN and
one with a non-empty parent DN. -/
theorem C8_witness :
    (LDAPEntry.mk (pstr "cn=a") [] [] []).dn = pstr "cn=a" ∧
    (LDAPEntry.mk (pstr "cn=a") (pstr "dc=x") [] []).dn =
      pstr "cn=a" ++ ',' :: pstr "dc=x" :=
  ⟨C8_dn_composition.1 _ rfl, C8_dn_composition.2 _ (by decide)⟩

/-! ## Claim C2: counterexample -/

/-- Counterexample to claim C2: the claim says the hash character is
backslash-escaped only as a leading character, so `escape_dn_value "a#b"`
would be `"a#b"` unchanged; the code escapes the hash wherever it occurs and
returns `"a\#b"`. -/
theorem C2_counterexample :
    escape_dn_value (pstr "a#b") = pstr "a\\#b" ∧
    escape_dn_value (pstr "a#b") ≠ pstr "a#b" := by
  constructor
  · decide
  · decide

/-! ## Claim C4: counterexample -/

/-- Counterexample to claim C4: the claim requires a DN segment key to match
the keystring grammar, which demands a leading ASCII letter; the key `0` does
not match that grammar, yet `validate_dn "0=x"` accepts and the entry with
`rdn="0=x"` validates successfully, because the code's segment pattern is
`[a-zA-Z0-9-]+=.*`. -/
theorem C4_counterexample :
    validate_attribute_name (pstr "0") = false ∧
    validate_dn (pstr "0=x") = true ∧
    validate_entry (LDAPEntry.init (pstr "0=x") [] none none) = Except.ok () := by
  refine ⟨by decide, by decide, rfl⟩

/-! ## Claim C3 -/

/-- Claim C3: `is_safe_string s` is `False` exactly when `s` is non-empty and
contains a character above 127 or equal to NUL, LF or CR, or starts with
space, colon or less-than, or ends with a space; plus the five concrete
examples of the spec. -/
theorem C3_is_safe_string :
    (∀ s : PyStr, is_safe_string s = false ↔
      (s ≠ [] ∧ ((∃ c ∈ s, 127 < c.toNat ∨ c.toNat = 0 ∨ c.toNat = 10 ∨ c.toNat = 13) ∨
        (∃ c, s.head? = some c ∧ (c.toNat = 32 ∨ c.toNat = 58 ∨ c.toNat = 60)) ∨
        s.getLast? = some ' '))) ∧
    is_safe_string (pstr "") = true ∧
    is_safe_string (pstr " leading") = false ∧
    is_safe_string (pstr "trailing ") = false ∧
    is_safe_string (pstr ":colon-start") = false ∧
    is_safe_string (pstr "plain value") = true := by
  refine ⟨?_, by decide, by decide, by decide, by decide, by decide⟩
  intro s
  have hbad : ∀ x : Char, badChar x = true ↔
      (127 < x.toNat ∨ x.toNat = 0 ∨ x.toNat = 10 ∨ x.toNat = 13) := by
    intro x
    simp only [badChar, Bool.or_eq_true, decide_eq_true_eq, beq_iff_eq]
    tauto
  cases s with
  | nil => simp [is_safe_string]
  | cons c t =>
    constructor
    · intro h
      refine ⟨List.cons_ne_nil c t, ?_⟩
      by_cases h1 : (c :: t).any badChar = true
      · obtain ⟨x, hx, hb⟩ := List.any_eq_true.mp h1
        exact Or.inl ⟨x, hx, (hbad x).mp hb⟩
      · by_cases h2 : (c.toNat == 32 || c.toNat == 58 || c.toNat == 60) = true
        · refine Or.inr (Or.inl ⟨c, rfl, ?_⟩)
          have := h2
          simp only [Bool.or_eq_true, beq_iff_eq] at this
          tauto
        · by_cases h3 : (c :: t).getLast? = some ' '
          · exact Or.inr (Or.inr h3)
          · have hsafe : is_safe_string (c :: t) = true := by
              simp only [is_safe_string]
              rw [if_neg h1, if_neg h2, if_neg h3]
            rw [hsafe] at h
            exact absurd h (by simp)
    · rintro ⟨-, h⟩
      simp only [is_safe_string]
      rcases h with ⟨x, hx, hp⟩ | ⟨d, hd, hp⟩ | hlast
      · rw [if_pos (List.any_eq_true.mpr ⟨x, hx, (hbad x).mpr hp⟩)]
      · have hdc : c = d := by simpa using hd
        subst hdc
        have h2 : (c.toNat == 32 || c.toNat == 58 || c.toNat == 60) = true := by
          simp only [Bool.or_eq_true, beq_iff_eq]
          tauto
        by_cases h1 : (c :: t).any badChar = true
        · rw [if_pos h1]
        · rw [if_neg h1, if_pos h2]
      · by_cases h1 : (c :: t).any badChar = true
        · rw [if_pos h1]
        · rw [if_neg h1]
          by_cases h2 : (c.toNat == 32 || c.toNat == 58 || c.toNat == 60) = true
          · rw [if_pos h2]
          · rw [if_neg h2, if_pos hlast]

/-! ## Claim C9 -/

theorem escChar_plainAlnum {c : Char} (h : plainAlnum c = true) : escChar c = [c] := by
  have hn : (65 ≤ c.toNat ∧ c.toNat ≤ 90) ∨ (97 ≤ c.toNat ∧ c.toNat ≤ 122) ∨
      (48 ≤ c.toNat ∧ c.toNat ≤ 57) := by
    have := h
    simp only [plainAlnum, Bool.or_eq_true, Bool.and_eq_true, decide_eq_true_eq] at this
    tauto
  have hmem : c ∉ escSpecials := by
    intro hm
    simp only [escSpecials, List.mem_cons, List.not_mem_nil, or_false] at hm
    rcases hm with rfl | rfl | rfl | rfl | rfl | rfl | rfl | rfl
    all_goals revert hn; decide
  unfold escChar
  rw [if_neg hmem, if_neg (by omega)]

theorem flatten_escChar_plain : ∀ (s : PyStr), (∀ c ∈ s, plainAlnum c = true) →
    (s.map escChar).flatten = s
  | [], _ => rfl
  | c :: t, h => by
    rw [List.map_cons, List.flatten_cons, escChar_plainAlnum (h c (by simp)),
      flatten_escChar_plain t (fun x hx => h x (by simp [hx]))]
    rfl

/-- Claim C9: `escape_dn_value` is the identity on non-empty strings of plain
ASCII letters and digits, and `escape_dn_value "a,b"` is the four-character
string backslash-comma between `a` and `b`, not a double-escaped form. -/
theorem C9_escape_identity :
    (∀ s : PyStr, s ≠ [] → (∀ c ∈ s, plainAlnum c = true) → escape_dn_value s = s) ∧
    escape_dn_value (pstr "a,b") = pstr "a\\,b" := by
  refine ⟨?_, by decide⟩
  intro s _hne hall
  have hacc : escAccum s = s := by
    rw [escAccum_eq_flatten, flatten_escChar_plain s hall]
  have hlead : fixLeading s = s := by
    cases s with
    | nil => rfl
    | cons c t =>
      have hc : ¬ c = ' ' := by
        intro hsp
        subst hsp
        exact absurd (hall ' ' (by simp)) (by decide)
      simp [fixLeading, hc]
  have htrail : fixTrailing s = s := by
    unfold fixTrailing
    rw [if_neg ?hno]
    case hno =>
      intro hgl
      have hmem : ' ' ∈ s := by
        obtain ⟨hne2, heq⟩ :=
          List.mem_getLast?_eq_getLast (show ' ' ∈ s.getLast? by simp [Option.mem_def, hgl])
        rw [heq]
        exact List.getLast_mem hne2
      exact absurd (hall ' ' hmem) (by decide)
  rw [escape_dn_value, hacc, hlead, htrail]

/-- Witness for C9 at the concrete string `abc`. -/
theorem C9_witness :
    pstr "abc" ≠ [] ∧ (∀ c ∈ pstr "abc", plainAlnum c = true) ∧
    escape_dn_value (pstr "abc") = pstr "abc" :=
  ⟨by decide, by decide, C9_escape_identity.1 (pstr "abc") (by decide) (by decide)⟩

/-! ## Claim C2: amended -/

theorem escChar_eq_amended (c : Char) : escChar c = escCharAmended c := by
  have hiff : c ∈ escSpecials ↔
      (c = '#' ∨ c = ',' ∨ c = '+' ∨ c = '"' ∨ c = '\\' ∨ c = '<' ∨ c = '>' ∨ c = ';') := by
    simp [escSpecials]
  unfold escChar escCharAmended
  by_cases hm : c ∈ escSpecials
  · rw [if_pos hm, if_pos (hiff.mp hm)]
  · have hd : ¬ (c = '#' ∨ c = ',' ∨ c = '+' ∨ c = '"' ∨ c = '\\' ∨ c = '<' ∨ c = '>' ∨ c = ';') :=
      fun hx => hm (hiff.mpr hx)
    rw [if_neg hm, if_neg hd]
    by_cases hr : c.toNat < 32 ∨ 126 < c.toNat
    · have hp : ¬ (32 ≤ c.toNat ∧ c.toNat ≤ 126) := by omega
      rw [if_pos hr, if_neg hp]
      rfl
    · have hp : 32 ≤ c.toNat ∧ c.toNat ≤ 126 := by omega
      rw [if_neg hr, if_pos hp]

/-- Amended claim C2: `escape_dn_value` maps every character through the
per-character rule (the seven specials and the hash escaped wherever they
occur, non-printables hex-escaped byte-wise, everything else kept),
concatenates, then applies the leading-space and trailing-space fixes, in
that order; the empty string maps to the empty string. -/
theorem C2_escape_amended :
    (∀ value : PyStr,
      escape_dn_value value =
        trailingSpaceFix (leadingSpaceFix ((value.map escCharAmended).flatten))) ∧
    escape_dn_value [] = [] ∧
    escape_dn_value (pstr " x") = pstr "\\ x" ∧
    escape_dn_value (pstr "x ") = pstr "x\\ " ∧
    escape_dn_value (pstr "é") = pstr "\\c3\\a9" := by
  refine ⟨?_, by decide, by decide, by decide, by decide⟩
  intro value
  have hfix : ∀ s : PyStr, fixLeading s = leadingSpaceFix s := by
    intro s
    cases s with
    | nil => rfl
    | cons c rest =>
      by_cases hc : c = ' '
      · subst hc; simp [fixLeading, leadingSpaceFix]
      · simp [fixLeading, leadingSpaceFix, hc]
  have hmap : value.map escChar = value.map escCharAmended := by
    simp [escChar_eq_amended]
  rw [escape_dn_value, escAccum_eq_flatten, hfix, hmap]
  rfl

/-! ## Claim C6: counterexample -/

/-- Counterexample to claim C6: a `Group` built with no members carries the
attribute `member` with an empty value list, yet `validate_entry` succeeds —
the validator never checks value lists for emptiness. -/
theorem C6_counterexample :
    (Group (pstr "admins") (pstr "dc=example,dc=com") none none).attributes =
      [(pstr "cn", [pstr "admins"]), (pstr "member", ([] : List PyStr))] ∧
    validate_entry (Group (pstr "admins") (pstr "dc=example,dc=com") none none) =
      Except.ok () := by
  refine ⟨rfl, rfl⟩

/-! ## Claim C6: amended -/

theorem checkObjectClasses_ok_iff : ∀ (l : List PyStr),
    checkObjectClasses l = Except.ok () ↔ ∀ oc ∈ l, validate_attribute_name oc = true
  | [] => by simp [checkObjectClasses]
  | oc :: rest => by
    by_cases h : validate_attribute_name oc = true
    · simp [checkObjectClasses, h, checkObjectClasses_ok_iff rest]
    · simp [checkObjectClasses, h]

theorem checkAttrNames_ok_iff : ∀ (l : List (PyStr × List PyStr)),
    checkAttrNames l = Except.ok () ↔ ∀ p ∈ l, validate_attribute_name p.1 = true
  | [] => by simp [checkAttrNames]
  | (nm, vals) :: rest => by
    by_cases h : validate_attribute_name nm = true
    · simp [checkAttrNames, h, checkAttrNames_ok_iff rest]
    · simp [checkAttrNames, h]

theorem validate_entry_ok_iff (e : LDAPEntry) :
    validate_entry e = Except.ok () ↔
      (validate_dn e.dn = true ∧
        (∀ oc ∈ e.object_classes, validate_attribute_name oc = true) ∧
        ∀ p ∈ e.attributes, validate_attribute_name p.1 = true) := by
  unfold validate_entry
  by_cases hdn : validate_dn e.dn = true
  · rw [if_pos hdn]
    cases hco : checkObjectClasses e.object_classes with
    | ok u =>
      cases u
      show checkAttrNames e.attributes = Except.ok () ↔ _
      rw [checkAttrNames_ok_iff]
      constructor
      · intro h
        exact ⟨hdn, (checkObjectClasses_ok_iff _).mp hco, h⟩
      · rintro ⟨-, -, h⟩
        exact h
    | error m =>
      have hnot : ¬ ∀ oc ∈ e.object_classes, validate_attribute_name oc = true := by
        intro hall
        rw [(checkObjectClasses_ok_iff _).mpr hall] at hco
        exact Except.noConfusion hco
      constructor
      · intro hcontra; exact absurd hcontra (by simp)
      · rintro ⟨-, hall, -⟩; exact absurd hall hnot
  · rw [if_neg hdn]
    constructor
    · intro hcontra; exact absurd hcontra (by simp)
    · rintro ⟨hd, -, -⟩; exact absurd hd hdn

/-- Amended claim C6: an attribute with an empty value sequence does not make
validation fail — `validate_entry` succeeds exactly when the DN, the
object-class names and the attribute names pass, never consulting the value
lists; a Group built with no members therefore validates and renders with no
`member` line. -/
theorem C6_validation_amended :
    (∀ e : LDAPEntry, validate_entry e = Except.ok () ↔
      (validate_dn e.dn = true ∧
        (∀ oc ∈ e.object_classes, validate_attribute_name oc = true) ∧
        ∀ p ∈ e.attributes, validate_attribute_name p.1 = true)) ∧
    generate (Group (pstr "admins") (pstr "dc=example,dc=com") none none) =
      Except.ok (pstr "dn: cn=admins,dc=example,dc=com\nobjectClass: top\nobjectClass: groupOfNames\ncn: admins") :=
  ⟨validate_entry_ok_iff, rfl⟩

/-! ## Claim C7 -/

/-- Claim C7: the Person/User constructor builds the RDN from the escaped
uid, the fixed object-class list, and the base attributes merged with the
extras, appending on a name collision; the `jdoe` scenario renders exactly
the expected lines. -/
theorem C7_person_constructor :
    (∀ uid parent_dn cn sn extras,
      (User uid parent_dn cn sn extras).rdn = pstr "uid=" ++ escape_dn_value uid) ∧
    (∀ uid parent_dn cn sn extras,
      (User uid parent_dn cn sn extras).object_classes =
        [pstr "top", pstr "person", pstr "organizationalPerson", pstr "inetOrgPerson"]) ∧
    (∀ uid parent_dn cn sn,
      (User uid parent_dn cn sn none).attributes =
        [(pstr "uid", [uid]), (pstr "cn", [cn]), (pstr "sn", [sn])]) ∧
    (∀ uid parent_dn cn sn extraVals,
      (User uid parent_dn cn sn (some [(pstr "cn", extraVals)])).attributes =
        [(pstr "uid", [uid]), (pstr "cn", cn :: extraVals), (pstr "sn", [sn])]) ∧
    (∀ uid parent_dn cn sn extraVals,
      (User uid parent_dn cn sn (some [(pstr "mail", extraVals)])).attributes =
        [(pstr "uid", [uid]), (pstr "cn", [cn]), (pstr "sn", [sn]), (pstr "mail", extraVals)]) ∧
    generate jdoeUser = Except.ok jdoeLdif ∧
    pstr "dn: uid=jdoe,ou=people,dc=example,dc=com" ∈ generateLines jdoeUser ∧
    pstr "objectClass: inetOrgPerson" ∈ generateLines jdoeUser ∧
    pstr "cn: John Doe" ∈ generateLines jdoeUser ∧
    pstr "sn: Doe" ∈ generateLines jdoeUser := by
  refine ⟨fun uid parent_dn cn sn extras => rfl, fun uid parent_dn cn sn extras => rfl,
    fun uid parent_dn cn sn => rfl, fun uid parent_dn cn sn extraVals => rfl,
    fun uid parent_dn cn sn extraVals => rfl, rfl, by decide, by decide, by decide, by decide⟩

/-! ## Claim C1 -/

/-- Claim C1: for every entry that validates, `generate` returns exactly the
DN line, the object-class lines in list order, and the attribute lines in
map-insertion and per-attribute list order, joined by single newlines with no
trailing newline; the number of objectClass lines equals the number of
object classes. -/
theorem C1_generate_structure :
    ∀ e : LDAPEntry, validate_entry e = Except.ok () →
      generate e = Except.ok (List.intercalate ['\n'] (specLines e)) ∧
      (e.object_classes.map ocLine).length = e.object_classes.length := by
  intro e h
  constructor
  · simp only [generate, h, generateLines_eq_specLines]
  · simp

/-- Witness for C1 at the concrete `jdoe` user. -/
theorem C1_witness :
    validate_entry jdoeUser = Except.ok () ∧
    (generate jdoeUser = Except.ok (List.intercalate ['\n'] (specLines jdoeUser)) ∧
      (jdoeUser.object_classes.map ocLine).length = jdoeUser.object_classes.length) :=
  ⟨rfl, C1_generate_structure jdoeUser rfl⟩

/-! ## Claim C10 -/

/-- Claim C10: an entry whose object-class list is empty (also when built with
`object_classes=None`, which the constructor turns into the empty list)
passes validation whenever its DN and attribute names pass, and `generate`
then renders a DN line followed only by attribute lines — no objectClass
line. -/
theorem C10_no_object_classes :
    (∀ rdn parent_dn attrs,
      (LDAPEntry.init rdn parent_dn none attrs).object_classes = []) ∧
    (∀ e : LDAPEntry, e.object_classes = [] → validate_dn e.dn = true →
      checkAttrNames e.attributes = Except.ok () →
      validate_entry e = Except.ok () ∧
      generate e = Except.ok (List.intercalate ['\n']
        (dnLine e :: (e.attributes.map (fun p => p.2.map (attrLine p.1))).flatten))) := by
  constructor
  · intro rdn parent_dn attrs; rfl
  · intro e hoc hdn hattrs
    have hval : validate_entry e = Except.ok () := by
      unfold validate_entry
      rw [if_pos hdn, hoc]
      exact hattrs
    refine ⟨hval, ?_⟩
    simp only [generate, hval, generateLines_eq_specLines, specLines, hoc]
    simp

/-- Witness for C10 at a concrete entry with no object classes. -/
theorem C10_witness :
    noClassEntry.object_classes = [] ∧ validate_dn noClassEntry.dn = true ∧
    checkAttrNames noClassEntry.attributes = Except.ok () ∧
    (validate_entry noClassEntry = Except.ok () ∧
      generate noClassEntry = Except.ok (List.intercalate ['\n']
        (dnLine noClassEntry ::
          (noClassEntry.attributes.map (fun p => p.2.map (attrLine p.1))).flatten))) :=
  ⟨rfl, by decide, rfl, C10_no_object_classes.2 noClassEntry rfl (by decide) rfl⟩

/-! ## Claim C5 -/

theorem batchOutputs_all_ok : ∀ (entries : List LDAPEntry) (outs : List PyStr),
    entries.map generate = outs.map Except.ok →
    ∀ acc, batchOutputs entries acc = Except.ok (acc ++ outs)
  | [], outs, h, acc => by
    cases outs with
    | nil => simp [batchOutputs]
    | cons o os => simp at h
  | e :: rest, outs, h, acc => by
    cases outs with
    | nil => simp at h
    | cons o os =>
      simp only [List.map_cons, List.cons.injEq] at h
      obtain ⟨h1, h2⟩ := h
      simp only [batchOutputs, h1]
      rw [batchOutputs_all_ok rest os h2 (acc ++ [o])]
      simp

theorem batchOutputs_fail_fast :
    ∀ (pre : List LDAPEntry) (e : LDAPEntry) (post : List LDAPEntry) (msg : PyStr),
    (∀ p ∈ pre, ∃ o, generate p = Except.ok o) →
    generate e = Except.error msg →
    ∀ acc, batchOutputs (pre ++ e :: post) acc = Except.error msg
  | [], e, post, msg, _, he, acc => by
    simp only [List.nil_append, batchOutputs, he]
  | q :: qs, e, post, msg, hpre, he, acc => by
    obtain ⟨o, ho⟩ := hpre q (by simp)
    simp only [List.cons_append, batchOutputs, ho]
    exact batchOutputs_fail_fast qs e post msg (fun p hp => hpre p (by simp [hp])) he _

/-- Claim C5: `generate_batch` renders each entry via the single-entry path
and joins the blocks in input order with one blank line and no trailing
separator; it is fail-fast — the first invalid entry's error is signalled
and no LDIF output is produced at all. -/
theorem C5_generate_batch :
    (∀ (entries : List LDAPEntry) (outs : List PyStr),
      entries.map generate = outs.map Except.ok →
      generate_batch entries = Except.ok (List.intercalate (pstr "\n\n") outs)) ∧
    (∀ (pre : List LDAPEntry) (e : LDAPEntry) (post : List LDAPEntry) (msg : PyStr),
      (∀ p ∈ pre, ∃ o, generate p = Except.ok o) →
      generate e = Except.error msg →
      generate_batch (pre ++ e :: post) = Except.error msg) := by
  constructor
  · intro entries outs h
    unfold generate_batch
    rw [batchOutputs_all_ok entries outs h []]
    rfl
  · intro pre e post msg hpre he
    unfold generate_batch
    rw [batchOutputs_fail_fast pre e post msg hpre he []]

theorem isEmpty_false_iff (l : PyStr) : l.isEmpty = false ↔ l ≠ [] := by
  cases l <;> simp

/-- Witness for C5: a two-user batch joined by one blank line, and a batch
whose second entry is invalid failing with that entry's error. -/
theorem C5_witness :
    generate_batch [wUser1, wUser2] =
      Except.ok (List.intercalate (pstr "\n\n") [wUser1Ldif, wUser2Ldif]) ∧
    generate_batch [wUser1, badEntry] = Except.error (pstr "Invalid DN: invalid") :=
  ⟨C5_generate_batch.1 [wUser1, wUser2] [wUser1Ldif, wUser2Ldif] rfl,
    C5_generate_batch.2 [wUser1] badEntry [] (pstr "Invalid DN: invalid")
      (by
        intro p hp
        simp only [List.mem_singleton] at hp
        subst hp
        exact ⟨wUser1Ldif, rfl⟩)
      rfl⟩

/-! ## Claim C4: amended -/

theorem takeWhile_key_append (key rest : PyStr) (hk : ∀ c ∈ key, keyChar c = true) :
    (key ++ '=' :: rest).takeWhile keyChar = key ∧
    (key ++ '=' :: rest).dropWhile keyChar = '=' :: rest := by
  have he : keyChar '=' = false := by decide
  induction key with
  | nil =>
    constructor
    · simp [List.takeWhile_cons, he]
    · simp [List.dropWhile_cons, he]
  | cons c t ih =>
    have hc : keyChar c = true := hk c (by simp)
    have iht := ih (fun x hx => hk x (by simp [hx]))
    constructor
    · simp [List.takeWhile_cons, hc, iht.1]
    · simp [List.dropWhile_cons, hc, iht.2]

theorem dnPartMatch_iff (p : PyStr) :
    dnPartMatch p = true ↔
      ∃ key rest, p = key ++ '=' :: rest ∧ key ≠ [] ∧
        (∀ c ∈ key, keyChar c = true) ∧ '\n' ∉ rest := by
  constructor
  · intro h
    rw [dnPartMatch, Bool.and_eq_true] at h
    obtain ⟨hkey, hrest⟩ := h
    have hne : p.takeWhile keyChar ≠ [] := by
      intro hx
      rw [hx] at hkey
      simp at hkey
    split at hrest
    case h_1 tail heq =>
      refine ⟨p.takeWhile keyChar, tail, ?_, hne, ?_, ?_⟩
      · rw [← heq, List.takeWhile_append_dropWhile]
      · exact fun x hx => List.mem_takeWhile_imp hx
      · simpa using hrest
    case h_2 => simp at hrest
  · rintro ⟨key, rest, rfl, hne, hall, hnl⟩
    obtain ⟨ht, hd⟩ := takeWhile_key_append key rest hall
    rw [dnPartMatch, ht, hd]
    simp [hne, hnl]

/-- Amended claim C4: validation splits `entry.dn` on commas honoring
backslash escapes, fails on an unterminated trailing escape, and accepts
exactly when the DN is non-empty and every segment, after stripping
surrounding whitespace, is non-empty and of the form `key=value` with `key`
one or more ASCII letters, digits or hyphens (a leading letter is NOT
required, unlike the keystring grammar) and `value` free of newlines; a
failing DN check raises an error carrying the DN, and the `rdn="invalid"`
scenario fails exactly so.  An escaped comma does not split. -/
theorem C4_validation_amended :
    (∀ dn : PyStr, validate_dn dn = true ↔
      (dn ≠ [] ∧ ∃ parts, dnSplit dn = some parts ∧
        ∀ part ∈ parts, pyStrip part ≠ [] ∧
          ∃ key rest, pyStrip part = key ++ '=' :: rest ∧ key ≠ [] ∧
            (∀ c ∈ key, keyChar c = true) ∧ '\n' ∉ rest)) ∧
    (∀ e : LDAPEntry, validate_dn e.dn = false →
      validate_entry e = Except.error (pstr "Invalid DN: " ++ e.dn)) ∧
    dnSplit (pstr "k=a\\,b,dc=x") = some [pstr "k=a\\,b", pstr "dc=x"] ∧
    validate_dn (pstr "k=a\\,b,dc=x") = true ∧
    validate_dn (pstr "a=b\\") = false ∧
    validate_entry badEntry = Except.error (pstr "Invalid DN: invalid") := by
  refine ⟨?_, ?_, rfl, by decide, by decide, rfl⟩
  · intro dn
    by_cases hdn : dn = []
    · subst hdn
      simp [validate_dn]
    · unfold validate_dn
      rw [if_neg hdn]
      cases hs : dnSplit dn with
      | none =>
        constructor
        · intro h; exact absurd h (by simp)
        · rintro ⟨-, parts, hp, -⟩
          exact Option.noConfusion hp
      | some parts =>
        show (parts.all fun part => !(pyStrip part).isEmpty && dnPartMatch (pyStrip part)) =
          true ↔ _
        constructor
        · intro h
          refine ⟨hdn, parts, rfl, ?_⟩
          intro part hpart
          have hpart2 := (List.all_eq_true.mp h) part hpart
          rw [Bool.and_eq_true, Bool.not_eq_true', isEmpty_false_iff] at hpart2
          obtain ⟨h1, h2⟩ := hpart2
          exact ⟨h1, (dnPartMatch_iff _).mp h2⟩
        · rintro ⟨-, parts2, hp2, hall⟩
          cases hp2
          rw [List.all_eq_true]
          intro part hpart
          obtain ⟨h1, h2⟩ := hall part hpart
          rw [Bool.and_eq_true, Bool.not_eq_true', isEmpty_false_iff]
          exact ⟨h1, (dnPartMatch_iff _).mpr h2⟩
  · intro e h
    unfold validate_entry
    rw [if_neg (by simp [h])]

/-- Witness for C4 at the concrete invalid entry. -/
theorem C4_witness :
    validate_dn badEntry.dn = false ∧
    validate_entry badEntry = Except.error (pstr "Invalid DN: " ++ badEntry.dn) :=
  ⟨by decide, C4_validation_amended.2.1 badEntry (by decide)⟩

end LDIF
